import Mathlib

/-!
Verification development for the array-like normalization and validation
layer (`pyvista/core/_validation/_array_wrapper.py`).

The shallow embedding models Python values that can reach the dispatch
constructor `_ArrayLikeWrapper.__new__`, the four wrapper variants
(`_NumberWrapper`, `_SequenceWrapper`, `_NestedSequenceWrapper`,
`_NumpyArrayWrapper`) and the dtype inference function
`_get_dtype_from_iterable`.

Python object identity is modelled where the source observes it:
conversion results are tagged `same` (the very backing-storage object was
returned) or `fresh` (a newly allocated object was returned), and
`change_dtype` reports whether the backing storage object held by the
wrapper after the call is the same object as before the call.
-/

set_option maxHeartbeats 1000000

namespace PyVistaValidation

/-- The three numeric element types handled by the layer, i.e. Python
`bool`, `int` and `float`. -/
inductive DType where
  | bool
  | int
  | float
deriving DecidableEq, Repr

/-- Promotion rank: Float > Integer > Boolean. -/
def DType.rank : DType → Nat
  | .bool => 0
  | .int => 1
  | .float => 2

/-- Numpy-style dtype promotion of two dtypes (least upper bound in the
rank order). -/
def DType.promote (a b : DType) : DType :=
  if a.rank ≤ b.rank then b else a

/-- A Python numeric scalar.  Python floats are modelled as rationals:
no claim performs floating-point rounding arithmetic, only kind tests
and exact conversions. -/
inductive PyScalar where
  | bool (b : Bool)
  | int (n : Int)
  | float (q : Rat)
deriving DecidableEq, Repr

/-- The Python runtime type (`type(x)`) of a scalar. -/
def scalarDtype : PyScalar → DType
  | .bool _ => .bool
  | .int _ => .int
  | .float _ => .float

/-- Numeric value of a scalar (bools count as 0/1, as in Python). -/
def scalarVal : PyScalar → Rat
  | .bool b => if b then 1 else 0
  | .int n => (n : Rat)
  | .float q => q

/-- A dense numpy array: a homogeneous dtype, a shape, and the flat
row-major data buffer. -/
structure NpArray where
  dtype : DType
  shape : List Nat
  data : List Rat
deriving DecidableEq, Repr

/-- A Python object that can be handed to the dispatch constructor:
numeric scalars, strings, lists, tuples and numpy arrays. -/
inductive PyObj where
  | scalar (s : PyScalar)
  | str (s : String)
  | list (xs : List PyObj)
  | tuple (xs : List PyObj)
  | ndarray (a : NpArray)

/-- The Python runtime type tag of an object, as observed by
`type(element)` in `_get_dtype_from_iterable`. -/
inductive PyType where
  | bool
  | int
  | float
  | str
  | list
  | tuple
  | ndarray
deriving DecidableEq, Repr

/-- The result of Python `type(x)` on a modelled object. -/
def PyObj.typeOf : PyObj → PyType
  | .scalar (.bool _) => .bool
  | .scalar (.int _) => .int
  | .scalar (.float _) => .float
  | .str _ => .str
  | .list _ => .list
  | .tuple _ => .tuple
  | .ndarray _ => .ndarray

/-- Elements of a list or tuple; `[]` for non-sequences. -/
def elemsOf : PyObj → List PyObj
  | .list xs => xs
  | .tuple xs => xs
  | _ => []

/-- Modelled from the spec: `_is_Number` of
`pyvista.core._typing_core._type_guards` is not under `src/`.  Per the
spec a value is a numeric scalar when it is itself a single number
(bool, int or float). -/
def _is_Number : PyObj → Bool
  | .scalar _ => true
  | _ => false

/-- Modelled from the spec: `_is_NumberSequence` of
`pyvista.core._typing_core._type_guards` is not under `src/`.  Per the
spec a value is a flat number sequence when it is a flat, finite
sequence (list or tuple) whose every element is itself a number; an
empty sequence qualifies. -/
def _is_NumberSequence : PyObj → Bool
  | .list xs => xs.all _is_Number
  | .tuple xs => xs.all _is_Number
  | _ => false

/-- Rectangular depth-2 check shared by the list and tuple arms of
`_is_NestedNumberSequence`: every element is a flat number sequence and
all inner lengths agree. -/
def nestedGuard (xs : List PyObj) : Bool :=
  xs.all _is_NumberSequence &&
    match xs with
    | [] => true
    | y :: ys => ys.all (fun z => (elemsOf z).length == (elemsOf y).length)

/-- Modelled from the spec: `_is_NestedNumberSequence` of
`pyvista.core._typing_core._type_guards` is not under `src/`.  Per the
spec a value is a nested number sequence when it is a sequence of flat
numeric sequences of equal length (depth 2, rectangular). -/
def _is_NestedNumberSequence : PyObj → Bool
  | .list xs => nestedGuard xs
  | .tuple xs => nestedGuard xs
  | _ => false

/-- Stacks already-cast sub-arrays into one array the way `np.array`
does: all sub-shapes must agree, the dtypes are promoted, and the data
buffers are concatenated; an empty list becomes the empty float array of
shape `(0,)`. -/
def stackCast : Except Unit (List NpArray) → Except Unit NpArray
  | .error e => .error e
  | .ok [] => .ok ⟨.float, [0], []⟩
  | .ok (a :: rest) =>
      if rest.all (fun b => b.shape == a.shape) then
        .ok ⟨(rest.map NpArray.dtype).foldl DType.promote a.dtype,
             (rest.length + 1) :: a.shape,
             (a :: rest).foldr (fun b acc => b.data ++ acc) []⟩
      else .error ()

mutual

/-- Modelled from the spec: `_cast_to_numpy` of
`pyvista.core._validation._cast_array` is not under `src/`.  Per the
spec it is the best-effort coercion of arbitrary input to a dense
numeric array, raising a conversion error on non-numeric leaves or
ragged nesting (the `np.array` semantics). -/
def castObj : PyObj → Except Unit NpArray
  | .ndarray a => .ok a
  | .scalar s => .ok ⟨scalarDtype s, [], [scalarVal s]⟩
  | .str _ => .error ()
  | .list xs => stackCast (castEach xs)
  | .tuple xs => stackCast (castEach xs)

/-- Casts every element of a sequence, propagating the first error. -/
def castEach : List PyObj → Except Unit (List NpArray)
  | [] => .ok []
  | x :: rest =>
      match castObj x, castEach rest with
      | .ok a, .ok tl => .ok (a :: tl)
      | .error e, _ => .error e
      | .ok _, .error e => .error e

end

/-- Rendering of a float value in reprs (model artifact: integral floats
print with a trailing `.0`, the rest as exact fractions). -/
def floatRepr (q : Rat) : String :=
  if q.den = 1 then toString q.num ++ ".0" else toString q.num ++ "/" ++ toString q.den

mutual

/-- The full `repr` of a modelled Python object. -/
def pyRepr : PyObj → String
  | .scalar (.bool b) => if b then "True" else "False"
  | .scalar (.int n) => toString n
  | .scalar (.float q) => floatRepr q
  | .str s => "'" ++ s ++ "'"
  | .list xs => "[" ++ String.intercalate ", " (pyReprEach xs) ++ "]"
  | .tuple xs => "(" ++ String.intercalate ", " (pyReprEach xs) ++ ")"
  | .ndarray a => "array(shape=" ++ toString a.shape ++ ")"

/-- Reprs of the elements of a sequence. -/
def pyReprEach : List PyObj → List String
  | [] => []
  | x :: rest => pyRepr x :: pyReprEach rest

end

/-- Modelled from the spec: `reprlib.repr` (Python standard library, not
under `src/`) produces a length-bounded truncated preview of the
offending input; per the spec the preview is bounded at roughly 70
characters. -/
def reprTrunc (x : PyObj) : String :=
  let cs := (pyRepr x).toList
  if cs.length ≤ 70 then pyRepr x else String.mk (cs.take 67 ++ ("...".toList))

/-- The Python container class of a sequence object (`self._array.__class__`). -/
inductive Container where
  | list
  | tuple
deriving DecidableEq, Repr

/-- Backing storage of a `_SequenceWrapper`: a flat list or tuple of
numeric scalars, remembering its container class. -/
structure SeqStore where
  container : Container
  elems : List PyScalar
deriving DecidableEq, Repr

/-- One inner row of a `_NestedSequenceWrapper`'s backing storage,
remembering its own container class. -/
structure Row where
  container : Container
  elems : List PyScalar
deriving DecidableEq, Repr

/-- Backing storage of a `_NestedSequenceWrapper`: the outer container
class and the inner rows. -/
structure NestedStore where
  outer : Container
  rows : List Row
deriving DecidableEq, Repr

/-- The four wrapper variants of `_ArrayLikeWrapper`:
`number` is `_NumberWrapper`, `seq` is `_SequenceWrapper` (with its lazy
`_dtype` cache), `nested` is `_NestedSequenceWrapper` (idem), and
`numpy` is `_NumpyArrayWrapper`. -/
inductive Wrapper where
  | number (v : PyScalar)
  | seq (store : SeqStore) (cachedDtype : Option DType)
  | nested (store : NestedStore) (cachedDtype : Option DType)
  | numpy (arr : NpArray)
deriving DecidableEq, Repr

/-- The scalar held by a numeric-scalar object (junk default on the
non-scalar arms, which the dispatch guard makes unreachable). -/
def asScalar : PyObj → PyScalar
  | .scalar s => s
  | _ => .int 0

/-- Container class of a sequence object. -/
def containerOf : PyObj → Container
  | .tuple _ => .tuple
  | _ => .list

/-- Builds the `_SequenceWrapper` backing store from a flat number
sequence (guard `_is_NumberSequence` holds when this is used). -/
def toSeqStore (x : PyObj) : SeqStore :=
  ⟨containerOf x, (elemsOf x).map asScalar⟩

/-- Builds one row of the `_NestedSequenceWrapper` backing store. -/
def toRow (x : PyObj) : Row :=
  ⟨containerOf x, (elemsOf x).map asScalar⟩

/-- Builds the `_NestedSequenceWrapper` backing store from a nested
number sequence (guard `_is_NestedNumberSequence` holds when used). -/
def toNestedStore (x : PyObj) : NestedStore :=
  ⟨containerOf x, (elemsOf x).map toRow⟩

/-- Argument of the dispatch constructor: either a raw Python object or
an already-wrapped value. -/
inductive RawOrWrapped where
  | raw (x : PyObj)
  | wrapped (w : Wrapper)

/-- The uniform error message raised by the dispatch constructor
(`ValueError` with the truncated repr of the offending input). -/
def invalidArrayMsg (x : PyObj) : String :=
  "The following array is not valid:\n\t" ++ reprTrunc x

/-- The dispatch constructor `_ArrayLikeWrapper.__new__`: an
already-wrapped input is returned as-is; otherwise the guards are tried
in priority order (flat sequence, nested sequence, number) and
everything else is cast to a numpy array, any conversion error being
re-raised as the single uniform `ValueError`. -/
def wrap : RawOrWrapped → Except String Wrapper
  | .wrapped w => .ok w
  | .raw x =>
      if _is_NumberSequence x then
        .ok (.seq (toSeqStore x) none)
      else if _is_NestedNumberSequence x then
        .ok (.nested (toNestedStore x) none)
      else if _is_Number x then
        .ok (.number (asScalar x))
      else
        match castObj x with
        | .ok a => .ok (.numpy a)
        | .error _ => .error (invalidArrayMsg x)

/-- Loop body of `_get_dtype_from_iterable`: walks the elements keeping
the set of observed types, with an early return at the first float; at
the end of the stream the set distinguishes the empty, integer, boolean
and defensive-error cases exactly as the source does. -/
def dtypeLoop (dtypes : Finset PyType) : List PyObj → Except String DType
  | element :: rest =>
      if element.typeOf = PyType.float then .ok DType.float
      else dtypeLoop (insert element.typeOf dtypes) rest
  | [] =>
      if dtypes = ∅ then .ok DType.float
      else if dtypes = ({PyType.int} : Finset PyType) ∨
              dtypes = ({PyType.bool, PyType.int} : Finset PyType) then .ok DType.int
      else if dtypes = ({PyType.bool} : Finset PyType) then .ok DType.bool
      else .error "Unexpected error: dtype should be numeric"

/-- The dtype inference function `_get_dtype_from_iterable`. -/
def _get_dtype_from_iterable (l : List PyObj) : Except String DType :=
  dtypeLoop ∅ l

/-- Result of a conversion operation, carrying the value of the returned
Python object together with its identity provenance: `same` when the
very backing-storage object was returned, `fresh` when a newly allocated
object was returned. -/
inductive ConvResult where
  | same (v : PyObj)
  | fresh (v : PyObj)

/-- The value of the returned object. -/
def ConvResult.val : ConvResult → PyObj
  | .same v => v
  | .fresh v => v

/-- Whether the returned object is the backing storage itself. -/
def ConvResult.isSame : ConvResult → Bool
  | .same _ => true
  | .fresh _ => false

/-- The Python object a flat backing store denotes. -/
def SeqStore.toPyObj (st : SeqStore) : PyObj :=
  match st.container with
  | .list => .list (st.elems.map PyObj.scalar)
  | .tuple => .tuple (st.elems.map PyObj.scalar)

/-- The Python object one nested row denotes. -/
def Row.toPyObj (r : Row) : PyObj :=
  match r.container with
  | .list => .list (r.elems.map PyObj.scalar)
  | .tuple => .tuple (r.elems.map PyObj.scalar)

/-- The Python object a nested backing store denotes. -/
def NestedStore.toPyObj (st : NestedStore) : PyObj :=
  match st.outer with
  | .list => .list (st.rows.map Row.toPyObj)
  | .tuple => .tuple (st.rows.map Row.toPyObj)

/-- Splits a flat buffer into `n` consecutive chunks of `m` entries, the
row-major reading of one axis of a dense array. -/
def chunksN : Nat → Nat → List Rat → List (List Rat)
  | 0, _, _ => []
  | Nat.succ k, m, d => d.take m :: chunksN k m (d.drop m)

/-- A raw buffer entry read back as a Python scalar of the array dtype. -/
def ratToScalar (dt : DType) (q : Rat) : PyScalar :=
  match dt with
  | .bool => .bool (q != 0)
  | .int => .int (if q ≥ 0 then ⌊q⌋ else ⌈q⌉)
  | .float => .float q

/-- Rebuilds the nested Python structure of a dense array, one
constructor (`mk`) per axis, as `ndarray.tolist` and `_cast_to_tuple`
do. -/
def npToNested (mk : List PyObj → PyObj) (dt : DType) : List Nat → List Rat → PyObj
  | [], d => .scalar (ratToScalar dt (d.headD 0))
  | n :: rest, d =>
      mk (List.map (fun ds => npToNested mk dt rest ds) (chunksN n rest.prod d))

/-- The `ndarray.tolist` conversion: nested Python lists. -/
def NpArray.tolist (a : NpArray) : PyObj :=
  npToNested PyObj.list a.dtype a.shape a.data

/-- Modelled from the spec: `_cast_to_tuple` of
`pyvista.core._validation._cast_array` is not under `src/`.  It converts
a dense array to nested Python tuples. -/
def _cast_to_tuple (a : NpArray) : PyObj :=
  npToNested PyObj.tuple a.dtype a.shape a.data

/-- The `shape` property of each variant.  `_NestedSequenceWrapper.shape`
reads `len(self._array[0])`, which fails on an empty outer sequence;
that partiality is modelled with `Option`. -/
def Wrapper.shape : Wrapper → Option (List Nat)
  | .number _ => some []
  | .seq st _ => some [st.elems.length]
  | .nested st _ => st.rows.head?.map (fun r => [st.rows.length, r.elems.length])
  | .numpy a => some a.shape

/-- The `ndim` property of each variant (for the dense variant numpy's
own `ndim`, the rank of the shape). -/
def Wrapper.ndim : Wrapper → Nat
  | .number _ => 0
  | .seq _ _ => 1
  | .nested _ _ => 2
  | .numpy a => a.shape.length

/-- The `size` property of each variant.  The nested variant computes
`len(self._array) * len(self._array[0])`, partial like `shape`; numpy's
`size` is the product of the shape. -/
def Wrapper.size : Wrapper → Option Nat
  | .number _ => some 1
  | .seq st _ => some st.elems.length
  | .nested st _ => st.rows.head?.map (fun r => st.rows.length * r.elems.length)
  | .numpy a => some a.shape.prod

/-- The `as_iterable` operation: the scalar elements in row-major
order (a length-1 stream for the scalar variant, the flattened rows for
the nested variant, the flattened buffer for the dense variant). -/
def Wrapper.as_iterable : Wrapper → List PyScalar
  | .number v => [v]
  | .seq st _ => st.elems
  | .nested st _ => (st.rows.map Row.elems).flatten
  | .numpy a => a.data.map (ratToScalar a.dtype)

/-- The `dtype` property: the scalar variant reports the runtime type of
its value, the sequence variants return the cached dtype or infer it
from `as_iterable()`, and the dense variant reports the array dtype. -/
def Wrapper.dtype : Wrapper → Except String DType
  | .number v => .ok (scalarDtype v)
  | .seq _ (some d) => .ok d
  | .seq st none =>
      _get_dtype_from_iterable ((Wrapper.as_iterable (.seq st none)).map PyObj.scalar)
  | .nested _ (some d) => .ok d
  | .nested st none =>
      _get_dtype_from_iterable ((Wrapper.as_iterable (.nested st none)).map PyObj.scalar)
  | .numpy a => .ok a.dtype

/-- The `to_list` conversion.  `inputIsBacking` records whether the
`input_array` argument passed by the caller is the very backing-storage
object (the only identity fact the source tests, via `out is
input_array`). -/
def Wrapper.to_list : Wrapper → Bool → Bool → ConvResult
  | .number v, _, _ => .same (.scalar v)
  | .seq st _, inputIsBacking, copy =>
      match st.container with
      | .list => if copy && inputIsBacking then .fresh st.toPyObj else .same st.toPyObj
      | .tuple => .fresh (.list (st.elems.map PyObj.scalar))
  | .nested st _, _, _ =>
      match st.outer with
      | .list => .same st.toPyObj
      | .tuple => .fresh (.list (st.rows.map (fun r => PyObj.list (r.elems.map PyObj.scalar))))
  | .numpy a, _, _ => .fresh a.tolist

/-- The `to_tuple` conversion, symmetric to `to_list`. -/
def Wrapper.to_tuple : Wrapper → Bool → Bool → ConvResult
  | .number v, _, _ => .same (.scalar v)
  | .seq st _, inputIsBacking, copy =>
      match st.container with
      | .tuple => if copy && inputIsBacking then .fresh st.toPyObj else .same st.toPyObj
      | .list => .fresh (.tuple (st.elems.map PyObj.scalar))
  | .nested st _, _, _ =>
      match st.outer with
      | .tuple => .same st.toPyObj
      | .list => .fresh (.tuple (st.rows.map (fun r => PyObj.tuple (r.elems.map PyObj.scalar))))
  | .numpy a, _, _ => .fresh (_cast_to_tuple a)

/-- Wraps the result of a numpy cast as an object (the cast never fails
on the numeric stores of the builtin variants). -/
def castToObj (r : Except Unit NpArray) : PyObj :=
  match r with
  | .ok a => .ndarray a
  | .error _ => .ndarray ⟨.float, [0], []⟩

/-- The `to_numpy` conversion: the builtin variants build a fresh array
with `np.array(self._array)`; the dense variant returns its backing
array, copying only when `copy` is set and the `input_array` argument is
that very array. -/
def Wrapper.to_numpy : Wrapper → Bool → Bool → ConvResult
  | .number v, _, _ => .fresh (castToObj (castObj (.scalar v)))
  | .seq st _, _, _ => .fresh (castToObj (castObj st.toPyObj))
  | .nested st _, _, _ => .fresh (castToObj (castObj st.toPyObj))
  | .numpy a, inputIsBacking, copy =>
      if copy && inputIsBacking then .fresh (.ndarray a) else .same (.ndarray a)

/-- Python conversion of a scalar by calling a dtype on it, `dtype(x)`:
`bool(x)` is truthiness, `int(x)` truncates toward zero, `float(x)` is
the exact value. -/
def pyConvert : DType → PyScalar → PyScalar
  | .bool, s => .bool (scalarVal s != 0)
  | .int, s =>
      .int (match s with
            | .bool b => if b then 1 else 0
            | .int n => n
            | .float q => if q ≥ 0 then ⌊q⌋ else ⌈q⌉)
  | .float, s => .float (scalarVal s)

/-- A raw buffer entry converted by `astype`. -/
def ratConvert : DType → Rat → Rat
  | .bool, q => if q = 0 then 0 else 1
  | .int, q => ((if q ≥ 0 then ⌊q⌋ else ⌈q⌉ : Int) : Rat)
  | .float, q => q

/-- The `change_dtype` operation of each variant.  The returned `Bool`
records whether the backing storage object held by the wrapper after the
call is the same object it held before: the scalar variant returns early
when the dtype already matches, the sequence variants always rebuild a
fresh container of the same class (`self._array.__class__(...)`), and
the dense variant calls `astype(dtype, copy=False)`, which returns the
same array when the dtype matches and a new buffer otherwise. -/
def Wrapper.change_dtype : Wrapper → DType → Wrapper × Bool
  | .number v, d =>
      if scalarDtype v = d then (.number v, true)
      else (.number (pyConvert d v), false)
  | .seq st _, d =>
      (.seq ⟨st.container, st.elems.map (pyConvert d)⟩ (some d), false)
  | .nested st _, d =>
      (.nested ⟨st.outer,
          st.rows.map (fun r => ⟨r.container, r.elems.map (pyConvert d)⟩)⟩ (some d), false)
  | .numpy a, d =>
      if a.dtype = d then (.numpy a, true)
      else (.numpy ⟨d, a.shape, a.data.map (ratConvert d)⟩, false)

theorem reprTrunc_length_le (x : PyObj) : (reprTrunc x).length ≤ 70 := by
  have hdef : reprTrunc x = if (pyRepr x).toList.length ≤ 70 then pyRepr x
      else String.mk ((pyRepr x).toList.take 67 ++ ("...".toList)) := rfl
  rw [hdef]
  by_cases h : (pyRepr x).toList.length ≤ 70
  · rw [if_pos h]
    exact h
  · rw [if_neg h]
    have h3 : ("...".toList).length = 3 := rfl
    have h2 : (String.mk ((pyRepr x).toList.take 67 ++ ("...".toList))).length
        = ((pyRepr x).toList.take 67).length + 3 := by
      show ((pyRepr x).toList.take 67 ++ ("...".toList)).length = _
      rw [List.length_append, h3]
    have h4 : ((pyRepr x).toList.take 67).length ≤ 67 := by
      rw [List.length_take]; omega
    omega

/-- C1: for every raw input that is not already a wrapper, the dispatch
constructor classifies it in priority order: a flat finite sequence of
numeric scalars becomes the FlatSequence variant, else a rectangular
sequence of flat numeric sequences becomes the NestedSequence variant,
else a single numeric scalar becomes the Scalar variant, and every other
input falls through to the Dense variant; an empty flat sequence is
classified as FlatSequence and its wrapper reports shape `(0,)`. -/
theorem C1_dispatch_priority (x : PyObj) :
    (_is_NumberSequence x = true →
        wrap (.raw x) = .ok (.seq (toSeqStore x) none)) ∧
    (_is_NumberSequence x = false → _is_NestedNumberSequence x = true →
        wrap (.raw x) = .ok (.nested (toNestedStore x) none)) ∧
    (_is_NumberSequence x = false → _is_NestedNumberSequence x = false →
        _is_Number x = true → wrap (.raw x) = .ok (.number (asScalar x))) ∧
    (_is_NumberSequence x = false → _is_NestedNumberSequence x = false →
        _is_Number x = false → ∀ a, castObj x = .ok a →
        wrap (.raw x) = .ok (.numpy a)) ∧
    wrap (.raw (PyObj.list [])) = .ok (.seq ⟨.list, []⟩ none) ∧
    Wrapper.shape (.seq ⟨.list, []⟩ none) = some [0] := by
  refine ⟨?_, ?_, ?_, ?_, rfl, rfl⟩
  · intro h1
    simp [wrap, h1]
  · intro h1 h2
    simp [wrap, h1, h2]
  · intro h1 h2 h3
    simp [wrap, h1, h2, h3]
  · intro h1 h2 h3 a ha
    simp [wrap, h1, h2, h3, ha]

theorem C1_dispatch_priority_witness :
    wrap (.raw (PyObj.list [PyObj.scalar (.int 1), PyObj.scalar (.int 2)])) =
      .ok (.seq ⟨.list, [.int 1, .int 2]⟩ none) :=
  (C1_dispatch_priority (PyObj.list [PyObj.scalar (.int 1), PyObj.scalar (.int 2)])).1 rfl

/-- C2: wrapping is idempotent: an already-wrapped input is returned
unchanged by the dispatch constructor, so `wrap (wrap x)` returns the
very wrapper `wrap x` produced. -/
theorem C2_wrap_idempotent :
    (∀ w : Wrapper, wrap (.wrapped w) = .ok w) ∧
    (∀ (x : RawOrWrapped) (w : Wrapper), wrap x = .ok w → wrap (.wrapped w) = .ok w) :=
  ⟨fun _ => rfl, fun _ _ _ => rfl⟩

theorem C2_wrap_idempotent_witness :
    wrap (.wrapped (.number (.int 7))) = .ok (.number (.int 7)) :=
  C2_wrap_idempotent.2 (.raw (PyObj.scalar (.int 7))) (.number (.int 7)) rfl

/-- C10: for every scalar input and either value of the copy flag, the
Scalar variant's `to_list` and `to_tuple` return the bare scalar itself
(not a one-element list or tuple), while its `as_iterable` yields a
length-1 stream. -/
theorem C10_scalar_bare (v : PyScalar) (b c : Bool) :
    Wrapper.to_list (.number v) b c = .same (.scalar v) ∧
    Wrapper.to_tuple (.number v) b c = .same (.scalar v) ∧
    Wrapper.as_iterable (.number v) = [v] ∧
    (∀ ys : List PyObj, PyObj.scalar v ≠ .list ys ∧ PyObj.scalar v ≠ .tuple ys) :=
  ⟨rfl, rfl, rfl, fun _ => ⟨nofun, nofun⟩⟩

/-- C4: whenever the dispatch constructor fails, the error is the single
uniform `ValueError` whose message is the fixed prefix followed by a
truncated (≤ 70 characters) preview of the offending input — the
lower-level conversion error never propagates; in particular the
non-numeric input `["a", "b"]` and the ragged input `[[1, 2], [3]]`
fail this way. -/
theorem C4_uniform_error (x : PyObj) (m : String)
    (h : wrap (.raw x) = .error m) :
    m = "The following array is not valid:\n\t" ++ reprTrunc x ∧
    (reprTrunc x).length ≤ 70 ∧
    wrap (.raw (PyObj.list [.str "a", .str "b"])) =
      .error ("The following array is not valid:\n\t" ++
        reprTrunc (PyObj.list [.str "a", .str "b"])) ∧
    wrap (.raw (PyObj.list [.list [.scalar (.int 1), .scalar (.int 2)],
        .list [.scalar (.int 3)]])) =
      .error ("The following array is not valid:\n\t" ++
        reprTrunc (PyObj.list [.list [.scalar (.int 1), .scalar (.int 2)],
          .list [.scalar (.int 3)]])) := by
  refine ⟨?_, reprTrunc_length_le x, rfl, rfl⟩
  unfold wrap at h
  by_cases h1 : _is_NumberSequence x
  · simp [h1] at h
  by_cases h2 : _is_NestedNumberSequence x
  · simp [h1, h2] at h
  by_cases h3 : _is_Number x
  · simp [h1, h2, h3] at h
  simp only [h1, h2, h3, if_false, Bool.false_eq_true] at h
  cases hc : castObj x with
  | ok a => rw [hc] at h; exact absurd h (by simp)
  | error e =>
      rw [hc] at h
      have := h
      simp only [Except.error.injEq] at this
      exact this.symm

theorem C4_uniform_error_witness :
    (reprTrunc (PyObj.list [PyObj.str "a", PyObj.str "b"])).length ≤ 70 :=
  (C4_uniform_error (PyObj.list [PyObj.str "a", PyObj.str "b"])
      ("The following array is not valid:\n\t" ++
        reprTrunc (PyObj.list [PyObj.str "a", PyObj.str "b"]))
      rfl).2.1

/-- An element whose runtime type is one of the numeric scalar kinds. -/
def numericType (x : PyObj) : Prop :=
  x.typeOf = PyType.bool ∨ x.typeOf = PyType.int ∨ x.typeOf = PyType.float

instance (x : PyObj) : Decidable (numericType x) := by
  unfold numericType; infer_instance

theorem dtypeLoop_float (l : List PyObj) :
    ∀ s : Finset PyType, l.any (fun x => x.typeOf == PyType.float) = true →
    dtypeLoop s l = .ok DType.float := by
  induction l with
  | nil => intro s h; simp at h
  | cons x rest ih =>
      intro s h
      by_cases hx : x.typeOf = PyType.float
      · simp only [dtypeLoop, if_pos hx]
      · have hr : rest.any (fun x => x.typeOf == PyType.float) = true := by
          simp only [List.any_cons, Bool.or_eq_true, beq_iff_eq] at h
          rcases h with h | h
          · exact absurd h hx
          · exact h
        simp only [dtypeLoop, if_neg hx]
        exact ih _ hr

/-- The set of observed types after scanning only booleans (`bB`) and
integers (`bI`). -/
def mkSet (bB bI : Bool) : Finset PyType :=
  (if bB then {PyType.bool} else ∅) ∪ (if bI then {PyType.int} else ∅)

theorem insert_bool_mkSet (bB bI : Bool) :
    insert PyType.bool (mkSet bB bI) = mkSet true bI := by
  cases bB <;> cases bI <;> decide

theorem insert_int_mkSet (bB bI : Bool) :
    insert PyType.int (mkSet bB bI) = mkSet bB true := by
  cases bB <;> cases bI <;> decide

theorem dtypeLoop_no_float (l : List PyObj) :
    ∀ bB bI : Bool,
    (∀ x ∈ l, x.typeOf = PyType.bool ∨ x.typeOf = PyType.int) →
    dtypeLoop (mkSet bB bI) l =
      .ok (if bI || l.any (fun x => x.typeOf == PyType.int) then DType.int
           else if bB || l.any (fun x => x.typeOf == PyType.bool) then DType.bool
           else DType.float) := by
  induction l with
  | nil => intro bB bI _; cases bB <;> cases bI <;> rfl
  | cons x rest ih =>
      intro bB bI h
      have hrest : ∀ y ∈ rest, y.typeOf = PyType.bool ∨ y.typeOf = PyType.int :=
        fun y hy => h y (List.mem_cons_of_mem x hy)
      rcases h x (List.mem_cons_self x rest) with hb | hi
      · have hxf : ¬(x.typeOf = PyType.float) := by rw [hb]; nofun
        simp only [dtypeLoop, if_neg hxf]
        rw [hb, insert_bool_mkSet, ih true bI hrest]
        simp [List.any_cons, hb]
      · have hxf : ¬(x.typeOf = PyType.float) := by rw [hi]; nofun
        simp only [dtypeLoop, if_neg hxf]
        rw [hi, insert_int_mkSet, ih bB true hrest]
        simp [List.any_cons, hi]

theorem get_dtype_numeric (l : List PyObj) (h : ∀ x ∈ l, numericType x) :
    _get_dtype_from_iterable l =
      .ok (if l.any (fun x => x.typeOf == PyType.float) then DType.float
           else if l.any (fun x => x.typeOf == PyType.int) then DType.int
           else if l.isEmpty then DType.float else DType.bool) := by
  unfold _get_dtype_from_iterable
  by_cases hf : l.any (fun x => x.typeOf == PyType.float) = true
  · rw [dtypeLoop_float l ∅ hf, if_pos hf]
  · have hnum : ∀ x ∈ l, x.typeOf = PyType.bool ∨ x.typeOf = PyType.int := by
      intro x hx
      rcases h x hx with h1 | h2 | h3
      · exact Or.inl h1
      · exact Or.inr h2
      · exact absurd (by rw [List.any_eq_true]; exact ⟨x, hx, by simp [h3]⟩) hf
    have h0 : mkSet false false = ∅ := by decide
    rw [← h0, dtypeLoop_no_float l false false hnum]
    simp only [Bool.false_or]
    rw [if_neg hf]
    by_cases hi : l.any (fun x => x.typeOf == PyType.int) = true
    · rw [if_pos hi, if_pos hi]
    · rw [if_neg hi, if_neg hi]
      cases l with
      | nil => rfl
      | cons x rest =>
          rcases hnum x (List.mem_cons_self x rest) with hb | hint
          · have hany : (x :: rest).any (fun x => x.typeOf == PyType.bool) = true := by
              simp [List.any_cons, hb]
            rw [if_pos hany]
            simp [List.isEmpty]
          · exact absurd (by simp [List.any_cons, hint]) hi

theorem dtypeLoop_error (l : List PyObj) :
    ∀ s : Finset PyType, (∃ t ∈ s, t ≠ PyType.bool ∧ t ≠ PyType.int) →
    l.any (fun x => x.typeOf == PyType.float) = false →
    ∃ msg, dtypeLoop s l = .error msg := by
  induction l with
  | nil =>
      intro s hs _
      obtain ⟨t, hts, htb, hti⟩ := hs
      have h1 : ¬(s = ∅) := by rintro rfl; simp at hts
      have h2 : ¬(s = ({PyType.int} : Finset PyType) ∨
          s = ({PyType.bool, PyType.int} : Finset PyType)) := by
        rintro (rfl | rfl)
        · exact hti (Finset.mem_singleton.mp hts)
        · rcases Finset.mem_insert.mp hts with hp | hp
          · exact htb hp
          · exact hti (Finset.mem_singleton.mp hp)
      have h3 : ¬(s = ({PyType.bool} : Finset PyType)) := by
        rintro rfl; exact htb (Finset.mem_singleton.mp hts)
      exact ⟨"Unexpected error: dtype should be numeric",
        by simp only [dtypeLoop, if_neg h1, if_neg h2, if_neg h3]⟩
  | cons y rest ih =>
      intro s hs hf
      simp only [List.any_cons, Bool.or_eq_false_iff, beq_eq_false_iff_ne] at hf
      simp only [dtypeLoop, if_neg hf.1]
      apply ih
      · obtain ⟨t, ht, htb, hti⟩ := hs
        exact ⟨t, Finset.mem_insert_of_mem ht, htb, hti⟩
      · exact hf.2

theorem dtypeLoop_other (l : List PyObj) :
    ∀ s : Finset PyType, l.any (fun x => x.typeOf == PyType.float) = false →
    (∃ x ∈ l, ¬ numericType x) →
    ∃ msg, dtypeLoop s l = .error msg := by
  induction l with
  | nil =>
      intro s _ hex
      obtain ⟨x, hx, _⟩ := hex
      simp at hx
  | cons y rest ih =>
      intro s hf hex
      simp only [List.any_cons, Bool.or_eq_false_iff, beq_eq_false_iff_ne] at hf
      simp only [dtypeLoop, if_neg hf.1]
      obtain ⟨x, hx, hnx⟩ := hex
      rcases List.mem_cons.mp hx with rfl | hxr
      · apply dtypeLoop_error rest _ _ hf.2
        refine ⟨x.typeOf, Finset.mem_insert_self _ _, ?_, ?_⟩
        · exact fun hb => hnx (Or.inl hb)
        · exact fun hi => hnx (Or.inr (Or.inl hi))
      · exact ih _ hf.2 ⟨x, hxr, hnx⟩

/-- C3: for every finite stream of numeric scalar elements, dtype
inference returns Float if any element is a float, Integer if no float
is present but a (non-boolean) integer is, Boolean when all observed
elements are booleans, and Float for an empty stream; the first float
short-circuits the scan (everything after it, even junk, is ignored);
any non-numeric combination without a float ends in the fatal defensive
error instead of a returned value. -/
theorem C3_dtype_inference (l : List PyObj) (h : ∀ x ∈ l, numericType x) :
    _get_dtype_from_iterable l =
      .ok (if l.any (fun x => x.typeOf == PyType.float) then DType.float
           else if l.any (fun x => x.typeOf == PyType.int) then DType.int
           else if l.isEmpty then DType.float else DType.bool) ∧
    (∀ (pre post : List PyObj) (q : Rat),
        _get_dtype_from_iterable (pre ++ PyObj.scalar (.float q) :: post) =
          .ok DType.float) ∧
    (∀ l2 : List PyObj, l2.any (fun x => x.typeOf == PyType.float) = false →
        (∃ x ∈ l2, ¬ numericType x) →
        ∃ msg, _get_dtype_from_iterable l2 = .error msg) := by
  refine ⟨get_dtype_numeric l h, ?_, ?_⟩
  · intro pre post q
    apply dtypeLoop_float
    simp [List.any_append, List.any_cons, PyObj.typeOf]
  · intro l2 hf hex
    exact dtypeLoop_other l2 ∅ hf hex

theorem C3_dtype_inference_witness :
    _get_dtype_from_iterable [PyObj.scalar (.bool true), PyObj.scalar (.int 2)] =
      .ok DType.int :=
  (C3_dtype_inference [PyObj.scalar (.bool true), PyObj.scalar (.int 2)] (by decide)).1

/-- C9 counterexample: dtype promotion is not monotonic at the empty
collection: the empty stream infers Float by convention, and adding the
boolean `True` drops the inferred dtype to Boolean, strictly lower in
the promotion order.  This refutes the claim as stated. -/
theorem C9_counterexample :
    _get_dtype_from_iterable [] = .ok DType.float ∧
    _get_dtype_from_iterable [PyObj.scalar (.bool true)] = .ok DType.bool ∧
    DType.rank DType.bool < DType.rank DType.float :=
  ⟨rfl, rfl, by decide⟩

/-- C9 amended: for every NON-EMPTY collection of numeric scalar
elements, appending a numeric element never lowers the inferred dtype in
the promotion order Float > Integer > Boolean (the empty collection is
excluded: its conventional Float can drop to Boolean or Integer). -/
theorem C9_promotion_monotone (l : List PyObj) (x : PyObj)
    (hne : l ≠ []) (hl : ∀ y ∈ l, numericType y) (hx : numericType x) :
    ∃ d1 d2, _get_dtype_from_iterable l = .ok d1 ∧
      _get_dtype_from_iterable (l ++ [x]) = .ok d2 ∧
      DType.rank d1 ≤ DType.rank d2 := by
  have hl2 : ∀ y ∈ l ++ [x], numericType y := by
    intro y hy
    rcases List.mem_append.mp hy with hy1 | hy2
    · exact hl y hy1
    · rw [List.mem_singleton.mp hy2]; exact hx
  refine ⟨_, _, get_dtype_numeric l hl, get_dtype_numeric _ hl2, ?_⟩
  by_cases hf : l.any (fun y => y.typeOf == PyType.float) = true
  · have hf2 : (l ++ [x]).any (fun y => y.typeOf == PyType.float) = true := by
      simp only [List.any_append, hf, Bool.true_or]
    rw [if_pos hf, if_pos hf2]
  · rw [if_neg hf]
    by_cases hi : l.any (fun y => y.typeOf == PyType.int) = true
    · have hi2 : (l ++ [x]).any (fun y => y.typeOf == PyType.int) = true := by
        simp only [List.any_append, hi, Bool.true_or]
      rw [if_pos hi]
      by_cases hf2 : (l ++ [x]).any (fun y => y.typeOf == PyType.float) = true
      · rw [if_pos hf2]; decide
      · rw [if_neg hf2, if_pos hi2]
    · rw [if_neg hi]
      have hemp : l.isEmpty = false := by
        cases l with
        | nil => exact absurd rfl hne
        | cons a as => rfl
      rw [hemp, if_neg (by simp)]
      exact Nat.zero_le _

theorem C9_promotion_monotone_witness :
    ∃ d1 d2, _get_dtype_from_iterable [PyObj.scalar (.int 2)] = .ok d1 ∧
      _get_dtype_from_iterable ([PyObj.scalar (.int 2)] ++
        [PyObj.scalar (.float (5 / 2))]) = .ok d2 ∧
      DType.rank d1 ≤ DType.rank d2 :=
  C9_promotion_monotone [PyObj.scalar (.int 2)] (PyObj.scalar (.float (5 / 2)))
    (by simp) (by decide) (by decide)

/-- C5 counterexample: for a NestedSequence wrapper whose backing
storage is already a list of lists, `to_list` called with `copy=True`
(and with that backing storage passed as `input_array`) returns the
backing storage itself: the `copy` flag is ignored and no structurally
distinct deep copy is produced, refuting the claim for the
NestedSequence variant. -/
theorem C5_counterexample :
    (Wrapper.to_list (.nested ⟨.list, [⟨.list, [.int 1, .int 2]⟩,
        ⟨.list, [.int 3, .int 4]⟩]⟩ none) true true).isSame = true := rfl

/-- C5 amended: with the backing storage already in the target
representation, `copy=False` returns the backing storage itself for
every variant; `copy=True` (with the backing passed as `input_array`)
returns a structurally equal fresh deep copy for the FlatSequence and
Dense variants; but the NestedSequence variant ignores the copy flag and
returns its backing storage for both flag values, and the Scalar
variant returns the bare scalar for both flag values. -/
theorem C5_copy_semantics :
    (∀ (st : SeqStore) (c : Option DType) (b : Bool), st.container = .list →
        Wrapper.to_list (.seq st c) b false = .same st.toPyObj) ∧
    (∀ (st : SeqStore) (c : Option DType), st.container = .list →
        Wrapper.to_list (.seq st c) true true = .fresh st.toPyObj) ∧
    (∀ (st : SeqStore) (c : Option DType) (b : Bool), st.container = .tuple →
        Wrapper.to_tuple (.seq st c) b false = .same st.toPyObj) ∧
    (∀ (st : SeqStore) (c : Option DType), st.container = .tuple →
        Wrapper.to_tuple (.seq st c) true true = .fresh st.toPyObj) ∧
    (∀ (a : NpArray) (b : Bool),
        Wrapper.to_numpy (.numpy a) b false = .same (.ndarray a)) ∧
    (∀ a : NpArray, Wrapper.to_numpy (.numpy a) true true = .fresh (.ndarray a)) ∧
    (∀ (st : NestedStore) (c : Option DType) (b cp : Bool), st.outer = .list →
        Wrapper.to_list (.nested st c) b cp = .same st.toPyObj) ∧
    (∀ (st : NestedStore) (c : Option DType) (b cp : Bool), st.outer = .tuple →
        Wrapper.to_tuple (.nested st c) b cp = .same st.toPyObj) ∧
    (∀ (v : PyScalar) (b cp : Bool),
        Wrapper.to_list (.number v) b cp = .same (.scalar v) ∧
        Wrapper.to_tuple (.number v) b cp = .same (.scalar v)) := by
  refine ⟨?_, ?_, ?_, ?_, fun a b => rfl, fun a => rfl, ?_, ?_, fun v b cp => ⟨rfl, rfl⟩⟩
  · rintro ⟨cont, elems⟩ c b hc
    cases hc
    rfl
  · rintro ⟨cont, elems⟩ c hc
    cases hc
    rfl
  · rintro ⟨cont, elems⟩ c b hc
    cases hc
    rfl
  · rintro ⟨cont, elems⟩ c hc
    cases hc
    rfl
  · rintro ⟨outer, rows⟩ c b cp hc
    cases hc
    rfl
  · rintro ⟨outer, rows⟩ c b cp hc
    cases hc
    rfl

theorem C5_copy_semantics_witness :
    Wrapper.to_list (.seq ⟨.list, [.int 1, .int 2]⟩ none) true false =
      .same (PyObj.list [.scalar (.int 1), .scalar (.int 2)]) :=
  C5_copy_semantics.1 ⟨.list, [.int 1, .int 2]⟩ none true rfl

theorem nested_rows_spec (xs : List PyObj)
    (hne : xs ≠ []) (hg : nestedGuard xs = true) :
    ∃ m, (∀ r ∈ xs.map toRow, r.elems.length = m) ∧
      ∃ r0, (xs.map toRow).head? = some r0 ∧ r0.elems.length = m := by
  cases xs with
  | nil => exact absurd rfl hne
  | cons y ys =>
      refine ⟨(elemsOf y).length, ?_, toRow y, rfl, by simp [toRow]⟩
      intro r hr
      rw [List.mem_map] at hr
      obtain ⟨z, hz, rfl⟩ := hr
      rcases List.mem_cons.mp hz with rfl | hzys
      · simp [toRow]
      · unfold nestedGuard at hg
        simp only [Bool.and_eq_true] at hg
        have hlen := List.all_eq_true.mp hg.2 z hzys
        simp only [beq_iff_eq] at hlen
        simp [toRow, hlen]

/-- C6: every rectangular nested-sequence input wrapped as the
NestedSequence variant has shape `(outer_len, inner_len)` and size
`outer_len * inner_len` (with `inner_len` the common row length); and
for every variant, whenever `shape` is defined, `len(shape) = ndim` and
`size = product(shape)` (an empty shape giving size 1). -/
theorem C6_shape_invariants (x : PyObj) (st : NestedStore) (c : Option DType)
    (h : wrap (.raw x) = .ok (.nested st c)) :
    (∃ m, (∀ r ∈ st.rows, r.elems.length = m) ∧
        Wrapper.shape (.nested st c) = some [st.rows.length, m] ∧
        Wrapper.size (.nested st c) = some (st.rows.length * m)) ∧
    (∀ (w : Wrapper) (sh : List Nat), Wrapper.shape w = some sh →
        sh.length = Wrapper.ndim w ∧ Wrapper.size w = some sh.prod) := by
  constructor
  · have hflat : _is_NumberSequence x = false := by
      by_contra hc
      rw [Bool.not_eq_false] at hc
      simp [wrap, hc] at h
    have hnested : _is_NestedNumberSequence x = true := by
      by_contra hc
      have hc' : _is_NestedNumberSequence x = false := by
        cases hng : _is_NestedNumberSequence x
        · rfl
        · exact absurd hng hc
      by_cases hn : _is_Number x = true
      · simp [wrap, hflat, hc', hn] at h
      · have hn' : _is_Number x = false := by
          cases hm : _is_Number x
          · rfl
          · exact absurd hm hn
        simp only [wrap, hflat, hc', hn', Bool.false_eq_true, if_false] at h
        cases hcast : castObj x with
        | ok a => rw [hcast] at h; simp at h
        | error e => rw [hcast] at h; simp at h
    have hw : wrap (.raw x) = .ok (.nested (toNestedStore x) none) := by
      simp [wrap, hflat, hnested]
    rw [hw] at h
    have hinj := Except.ok.inj h
    injection hinj with hst hc2
    subst hst
    subst hc2
    cases x with
    | scalar s => simp [_is_NestedNumberSequence] at hnested
    | str s => simp [_is_NestedNumberSequence] at hnested
    | ndarray a => simp [_is_NestedNumberSequence] at hnested
    | list xs =>
        have hne : xs ≠ [] := by
          rintro rfl
          simp [_is_NumberSequence] at hflat
        have hg : nestedGuard xs = true := hnested
        obtain ⟨m, hall, r0, hr0, hr0len⟩ := nested_rows_spec xs hne hg
        refine ⟨m, ?_, ?_, ?_⟩
        · intro r hr
          exact hall r hr
        · show ((toNestedStore (PyObj.list xs)).rows.head?.map
            (fun r => [(toNestedStore (PyObj.list xs)).rows.length, r.elems.length])) = _
          have : (toNestedStore (PyObj.list xs)).rows = xs.map toRow := rfl
          rw [this, hr0]
          simp [hr0len]
        · show ((toNestedStore (PyObj.list xs)).rows.head?.map
            (fun r => (toNestedStore (PyObj.list xs)).rows.length * r.elems.length)) = _
          have : (toNestedStore (PyObj.list xs)).rows = xs.map toRow := rfl
          rw [this, hr0]
          simp [hr0len]
    | tuple xs =>
        have hne : xs ≠ [] := by
          rintro rfl
          simp [_is_NumberSequence] at hflat
        have hg : nestedGuard xs = true := hnested
        obtain ⟨m, hall, r0, hr0, hr0len⟩ := nested_rows_spec xs hne hg
        refine ⟨m, ?_, ?_, ?_⟩
        · intro r hr
          exact hall r hr
        · show ((toNestedStore (PyObj.tuple xs)).rows.head?.map
            (fun r => [(toNestedStore (PyObj.tuple xs)).rows.length, r.elems.length])) = _
          have : (toNestedStore (PyObj.tuple xs)).rows = xs.map toRow := rfl
          rw [this, hr0]
          simp [hr0len]
        · show ((toNestedStore (PyObj.tuple xs)).rows.head?.map
            (fun r => (toNestedStore (PyObj.tuple xs)).rows.length * r.elems.length)) = _
          have : (toNestedStore (PyObj.tuple xs)).rows = xs.map toRow := rfl
          rw [this, hr0]
          simp [hr0len]
  · intro w sh hsh
    cases w with
    | number v =>
        simp only [Wrapper.shape, Option.some.injEq] at hsh
        subst hsh
        exact ⟨rfl, rfl⟩
    | seq st' c' =>
        simp only [Wrapper.shape, Option.some.injEq] at hsh
        subst hsh
        refine ⟨rfl, ?_⟩
        simp [Wrapper.size, List.prod]
    | nested st' c' =>
        cases hrows : st'.rows with
        | nil => simp [Wrapper.shape, hrows] at hsh
        | cons r rs =>
            simp only [Wrapper.shape, hrows, List.head?, Option.map_some',
              Option.some.injEq] at hsh
            subst hsh
            refine ⟨rfl, ?_⟩
            simp [Wrapper.size, hrows, List.prod]
    | numpy a =>
        simp only [Wrapper.shape, Option.some.injEq] at hsh
        subst hsh
        exact ⟨rfl, rfl⟩

theorem C6_shape_invariants_witness :
    Wrapper.shape (.nested ⟨.list, [⟨.list, [.int 1, .int 2]⟩,
        ⟨.list, [.int 3, .int 4]⟩]⟩ none) = some [2, 2] ∧
    Wrapper.size (.nested ⟨.list, [⟨.list, [.int 1, .int 2]⟩,
        ⟨.list, [.int 3, .int 4]⟩]⟩ none) = some 4 := by
  obtain ⟨⟨m, hall, hsh, hsize⟩, -⟩ := C6_shape_invariants
      (PyObj.list [.list [.scalar (.int 1), .scalar (.int 2)],
        .list [.scalar (.int 3), .scalar (.int 4)]])
      ⟨.list, [⟨.list, [.int 1, .int 2]⟩, ⟨.list, [.int 3, .int 4]⟩]⟩ none rfl
  have hm : m = 2 := by
    have := hall ⟨.list, [.int 1, .int 2]⟩ (List.mem_cons.mpr (Or.inl rfl))
    simpa using this.symm
  rw [hm] at hsh hsize
  exact ⟨hsh, by simpa using hsize⟩

theorem pyConvert_id (d : DType) (s : PyScalar) (h : scalarDtype s = d) :
    pyConvert d s = s := by
  subst h
  cases s with
  | bool b => cases b <;> rfl
  | int n => rfl
  | float q => rfl

theorem map_pyConvert_self (d : DType) (l : List PyScalar)
    (h : ∀ s ∈ l, scalarDtype s = d) : l.map (pyConvert d) = l := by
  induction l with
  | nil => rfl
  | cons a t ih =>
      simp only [List.map_cons]
      rw [pyConvert_id d a (h a (List.mem_cons_self a t)),
        ih (fun s hs => h s (List.mem_cons_of_mem a hs))]

theorem map_row_convert_self (d : DType) (rows : List Row)
    (h : ∀ r ∈ rows, ∀ s ∈ r.elems, scalarDtype s = d) :
    rows.map (fun r => (⟨r.container, r.elems.map (pyConvert d)⟩ : Row)) = rows := by
  induction rows with
  | nil => rfl
  | cons r t ih =>
      simp only [List.map_cons]
      rw [map_pyConvert_self d r.elems (h r (List.mem_cons_self r t)),
        ih (fun r2 hr2 => h r2 (List.mem_cons_of_mem r hr2))]

/-- C7 counterexample: a FlatSequence wrapper over the list `[1, 2]`
already has integer element type, yet `change_dtype(int)` still rebuilds
a fresh backing container (the backing-identity flag is `false`) instead
of leaving the backing storage object unchanged, refuting the claim for
the sequence-like variants. -/
theorem C7_counterexample :
    Wrapper.dtype (.seq ⟨.list, [.int 1, .int 2]⟩ none) = .ok DType.int ∧
    (Wrapper.change_dtype (.seq ⟨.list, [.int 1, .int 2]⟩ none) DType.int).2 = false :=
  ⟨rfl, rfl⟩

/-- C7 amended: `change_dtype` with the already-matching element type is
a true no-op (the backing object is untouched) for the Scalar and Dense
variants, but the FlatSequence and NestedSequence variants still rebuild
a fresh backing container — of the same container class and with the
element values unchanged — even when every element already has the
requested type. -/
theorem C7_change_dtype_noop :
    (∀ (v : PyScalar) (d : DType), scalarDtype v = d →
        Wrapper.change_dtype (.number v) d = (.number v, true)) ∧
    (∀ (a : NpArray) (d : DType), a.dtype = d →
        Wrapper.change_dtype (.numpy a) d = (.numpy a, true)) ∧
    (∀ (st : SeqStore) (c : Option DType) (d : DType),
        (∀ s ∈ st.elems, scalarDtype s = d) →
        Wrapper.change_dtype (.seq st c) d =
          (.seq ⟨st.container, st.elems⟩ (some d), false)) ∧
    (∀ (st : NestedStore) (c : Option DType) (d : DType),
        (∀ r ∈ st.rows, ∀ s ∈ r.elems, scalarDtype s = d) →
        Wrapper.change_dtype (.nested st c) d =
          (.nested ⟨st.outer, st.rows⟩ (some d), false)) := by
  refine ⟨?_, ?_, ?_, ?_⟩
  · intro v d h
    simp [Wrapper.change_dtype, h]
  · intro a d h
    simp [Wrapper.change_dtype, h]
  · intro st c d h
    simp only [Wrapper.change_dtype, Prod.mk.injEq]
    rw [map_pyConvert_self d st.elems h]
    exact ⟨rfl, trivial⟩
  · intro st c d h
    simp only [Wrapper.change_dtype, Prod.mk.injEq]
    rw [map_row_convert_self d st.rows h]
    exact ⟨rfl, trivial⟩

theorem C7_change_dtype_noop_witness :
    Wrapper.change_dtype (.number (.int 5)) DType.int = (.number (.int 5), true) :=
  C7_change_dtype_noop.1 (.int 5) DType.int rfl

/-- C8 counterexample: `change_dtype(float)` on a FlatSequence wrapper
constructed over the list `[1, 2]` does not rewrite that storage in
place: it constructs a fresh container and rebinds the wrapper's backing
reference (the backing-identity flag is `false`), leaving the original
storage unmutated — refuting the in-place-mutation claim for the
sequence-like variants. -/
theorem C8_counterexample :
    Wrapper.change_dtype (.seq ⟨.list, [.int 1, .int 2]⟩ none) DType.float =
      (.seq ⟨.list, [.float 1, .float 2]⟩ (some DType.float), false) := rfl

/-- C8 amended: the sequence-like variants do not mutate the caller's
storage in place: `change_dtype` always constructs a fresh container of
the same container class and rebinds the wrapper's backing reference;
the Dense variant (`astype(dtype, copy=False)`) allocates a new buffer
when the dtype actually changes and returns the very same array when it
already matches. -/
theorem C8_change_dtype_rebuild :
    (∀ (st : SeqStore) (c : Option DType) (d : DType),
        Wrapper.change_dtype (.seq st c) d =
          (.seq ⟨st.container, st.elems.map (pyConvert d)⟩ (some d), false)) ∧
    (∀ (st : NestedStore) (c : Option DType) (d : DType),
        Wrapper.change_dtype (.nested st c) d =
          (.nested ⟨st.outer, st.rows.map
              (fun r => ⟨r.container, r.elems.map (pyConvert d)⟩)⟩ (some d), false)) ∧
    (∀ (a : NpArray) (d : DType), a.dtype ≠ d →
        (Wrapper.change_dtype (.numpy a) d).2 = false) ∧
    (∀ (a : NpArray) (d : DType), a.dtype = d →
        Wrapper.change_dtype (.numpy a) d = (.numpy a, true)) := by
  refine ⟨fun st c d => rfl, fun st c d => rfl, ?_, ?_⟩
  · intro a d h
    simp [Wrapper.change_dtype, h]
  · intro a d h
    simp [Wrapper.change_dtype, h]

theorem C8_change_dtype_rebuild_witness :
    (Wrapper.change_dtype (.numpy ⟨DType.int, [2], [1, 2]⟩) DType.float).2 = false :=
  C8_change_dtype_rebuild.2.2.1 ⟨DType.int, [2], [1, 2]⟩ DType.float (by decide)

end PyVistaValidation
